import Mathlib

/-!
Shallow embedding of the flextrain repository's core numerical code:

* `src/flextrain/autoencoder/vae.py` — the class
  `AutoencoderConvolutionalVariational` (construction, `encode`, `decode`,
  `forward`, `reparameterize`, `loss_function`, `loss_function_v2`, `sample`);
* `scripts/diffusion/06_mnist_noising.py` — the class
  `DiffusionModelUNetConditioned` (its `forward`).

Tensors are modelled as a shape (list of dimension sizes) together with
row-major data over an arbitrary `Field` (rationals are used for concrete
witnesses).  Python exceptions are modelled by `Except PyError`.  The
framework's random number generator is modelled as an oracle
`rng : List Nat → List α` returning the data of a standard-normal sample of a
requested shape, and the framework's `exp` as an abstract function `α → α`
(its defining property, such as `exp 0 = 1`, is assumed where a claim needs
it).  External `torch.nn` modules (the user-supplied encoder and decoder, the
base diffusion network) and the external elementwise loss primitives
(`F.binary_cross_entropy_with_logits`, `F.binary_cross_entropy`, `F.mse_loss`,
`torch.nn.PairwiseDistance(p=1)`) are opaque parameters: the repository only
composes them.
-/

/-- Python exceptions that the modelled code can raise, by class. -/
inductive PyError where
  | keyError (key : String)
  | valueError (msg : String)
  | notImplementedError (msg : String)
  | assertionError (msg : String)
  | runtimeError (msg : String)
deriving DecidableEq

/-- A dense tensor: a shape `[d0, d1, ...]` and row-major data. -/
structure Tensor (α : Type) where
  shape : List Nat
  data : List α
deriving DecidableEq

namespace Tensor

variable {α : Type} [Field α]

/-- Number of elements, `t.numel()` in torch: the product of the dimensions. -/
def numel (t : Tensor α) : Nat := t.shape.prod

/-- Well-formedness: the flat data has exactly `numel` entries. -/
def wf (t : Tensor α) : Prop := t.data.length = t.shape.prod

/-- `torch.flatten(t, 1)`: keep dimension 0, collapse the rest into one
dimension.  In torch a start dimension of 1 is out of range for tensors with
fewer than two dimensions (IndexError, modelled as a runtime error); the
source only ever applies it to tensors with a batch dimension plus at least
one more. -/
def flatten1 (t : Tensor α) : Except PyError (Tensor α) :=
  match t.shape with
  | n :: d :: rest => Except.ok ⟨[n, (d :: rest).prod], t.data⟩
  | _ => Except.error (PyError.runtimeError "flatten: dimension out of range")

/-- `t.view(s)`: reinterpret the data with shape `s`; requires the element
count to be preserved, else a runtime error. -/
def view (t : Tensor α) (s : List Nat) : Except PyError (Tensor α) :=
  if t.shape.prod = s.prod then Except.ok ⟨s, t.data⟩
  else Except.error (PyError.runtimeError "view: shape is invalid for input size")

/-- Elementwise unary operation (`torch.exp`, scalar multiply, `pow`, ...). -/
def map (f : α → α) (t : Tensor α) : Tensor α := ⟨t.shape, t.data.map f⟩

/-- Elementwise binary operation between same-shaped tensors (`+`, `-`, `*`).
The source only combines tensors of identical shape, the case in which torch
broadcasting is the identity; a shape mismatch is a runtime error. -/
def zipSameShape (f : α → α → α) (a b : Tensor α) : Except PyError (Tensor α) :=
  if a.shape = b.shape then Except.ok ⟨a.shape, List.zipWith f a.data b.data⟩
  else Except.error (PyError.runtimeError "tensor shapes must match")

/-- `a + b` on same-shaped tensors. -/
def add (a b : Tensor α) : Except PyError (Tensor α) := zipSameShape (fun x y => x + y) a b

/-- `a - b` on same-shaped tensors. -/
def sub (a b : Tensor α) : Except PyError (Tensor α) := zipSameShape (fun x y => x - y) a b

/-- `a * b` on same-shaped tensors. -/
def mul (a b : Tensor α) : Except PyError (Tensor α) := zipSameShape (fun x y => x * y) a b

/-- `t.mean(dim=1)` on a two-dimensional tensor `[n, m]`: one mean per row.
In the source this is only applied directly after `flatten(_, 1)`, whose
result is always two-dimensional. -/
def meanDim1 (t : Tensor α) : Except PyError (Tensor α) :=
  match t.shape with
  | [n, m] =>
      Except.ok ⟨[n], (List.range n).map (fun i =>
        (((t.data.drop (i * m)).take m).sum) / (m : α))⟩
  | _ => Except.error (PyError.runtimeError "mean: expected a 2-D tensor here")

/-- `torch.cat([a, b], dim=1)`: concatenate along the channel axis.  Requires
at least two dimensions and all dimensions other than dimension 1 to agree,
else a runtime error. -/
def catDim1 (a b : Tensor α) : Except PyError (Tensor α) :=
  match a.shape, b.shape with
  | n :: ca :: rest, n2 :: cb :: rest2 =>
      if n = n2 ∧ rest = rest2 then
        Except.ok ⟨n :: (ca + cb) :: rest,
          List.flatten ((List.range n).map (fun i =>
            ((a.data.drop (i * (ca * rest.prod))).take (ca * rest.prod)) ++
            ((b.data.drop (i * (cb * rest2.prod))).take (cb * rest2.prod))))⟩
      else Except.error (PyError.runtimeError "cat: sizes of tensors must match except in dimension 1")
  | _, _ => Except.error (PyError.runtimeError "cat: tensors must have at least 2 dimensions")

end Tensor

/-- `torch.nn.Linear`: an affine map on the last dimension, with explicit
weight matrix (`outFeatures` rows of `inFeatures` entries) and bias. -/
structure Linear (α : Type) where
  inFeatures : Nat
  outFeatures : Nat
  weight : List (List α)
  bias : List α
deriving DecidableEq

/-- Dot product of two equally long lists. -/
def dot {α : Type} [Field α] (xs ys : List α) : α := (List.zipWith (fun x y => x * y) xs ys).sum

namespace Linear

variable {α : Type} [Field α]

/-- `nn.Linear(in_features, out_features)`: the framework draws the initial
weight and bias at random; the draw is modelled by the oracles `w` and `b`. -/
def init (inF outF : Nat) (w : Nat → Nat → α) (b : Nat → α) : Linear α :=
  ⟨inF, outF,
    (List.range outF).map (fun j => (List.range inF).map (w j)),
    (List.range outF).map b⟩

/-- Apply the layer to a two-dimensional input `[n, d]` (the only use in the
source, which always applies it right after `flatten(_, 1)`); requires
`d = inFeatures`, else the underlying matrix multiplication fails. -/
def apply (L : Linear α) (t : Tensor α) : Except PyError (Tensor α) :=
  match t.shape with
  | [n, d] =>
      if d = L.inFeatures then
        Except.ok ⟨[n, L.outFeatures],
          List.flatten ((List.range n).map (fun i =>
            List.zipWith (fun row bj => dot row ((t.data.drop (i * d)).take d) + bj)
              L.weight L.bias))⟩
      else Except.error (PyError.runtimeError "linear: input features mismatch")
  | _ => Except.error (PyError.runtimeError "linear: expected a 2-D input here")

end Linear

/-- A Python dict of named per-sample loss tensors (`flextrain.losses.LossOutput`,
outside the shown sources; only its `losses` mapping is used here).  The dict
is an insertion-ordered association list. -/
structure LossOutput (α : Type) where
  losses : List (String × Tensor α)
deriving DecidableEq

/-- Python `d[k] = v` on a dict modelled as an association list: overwrite the
entry when the key is present, append it otherwise. -/
def setItem {α : Type} (d : List (String × α)) (k : String) (v : α) : List (String × α) :=
  if d.any (fun p => p.1 = k) then
    d.map (fun p => if p.1 = k then (k, v) else p)
  else d ++ [(k, v)]

/-- The model object of `AutoencoderConvolutionalVariational`.  The
user-supplied `encoder` and `decoder` are opaque tensor functions; `training`
is the externally managed `nn.Module` training flag. -/
structure AutoencoderConvolutionalVariational (α : Type) where
  encoder : Tensor α → Tensor α
  decoder : Tensor α → Tensor α
  z_size : Nat
  encoder_output_size : Nat
  cnn_dim : Int
  encoding_shape : List Nat
  z_logvar : Linear α
  z_mu : Linear α
  training : Bool

namespace AutoencoderConvolutionalVariational

variable {α : Type} [Field α]

/-- `__init__`: runs a dry encode pass on `x`, stores the product of the
non-batch dimensions of its shape as `encoder_output_size` (numpy `prod` of an
empty slice is 1, as is `List.prod []`), stores the full dry-run shape as
`encoding_shape`, `cnn_dim - 2`, and creates the two `nn.Linear`
projections with `encoder_output_size` input features and `z_size` output
features (their random initialisation supplied by the oracles `wlv blv wmu
bmu`). -/
def init (x : Tensor α) (cnn_dim : Int)
    (encoder decoder : Tensor α → Tensor α) (z_size : Nat)
    (wlv : Nat → Nat → α) (blv : Nat → α) (wmu : Nat → Nat → α) (bmu : Nat → α)
    (training : Bool) : AutoencoderConvolutionalVariational α :=
  { encoder := encoder
    decoder := decoder
    z_size := z_size
    encoder_output_size := ((encoder x).shape.drop 1).prod
    cnn_dim := cnn_dim - 2
    encoding_shape := (encoder x).shape
    z_logvar := Linear.init ((encoder x).shape.drop 1).prod z_size wlv blv
    z_mu := Linear.init ((encoder x).shape.drop 1).prod z_size wmu bmu
    training := training }

/-- `encode`: run the encoder, remember its output shape, flatten all
non-batch dimensions, and apply the mean and log-variance projections. -/
def encode (m : AutoencoderConvolutionalVariational α) (x : Tensor α) :
    Except PyError (Tensor α × Tensor α × List Nat) := do
  let n := m.encoder x
  let encoded_shape := n.shape
  let nf ← n.flatten1
  let mu ← m.z_mu.apply nf
  let logvar ← m.z_logvar.apply nf
  return (mu, logvar, encoded_shape)

/-- `reparameterize(training, z_mu, z_logvar)` (static): during training,
`std = exp(0.5 * z_logvar)`, `eps = randn_like(std)` (the draw supplied by the
`rng` oracle at `std`'s shape) and the result is `z_mu + eps * std`; during
evaluation the mean is returned unchanged. -/
def reparameterize (exp : α → α) (rng : List Nat → List α)
    (training : Bool) (z_mu z_logvar : Tensor α) : Except PyError (Tensor α) :=
  if training then
    let std := Tensor.map exp (Tensor.map (fun v => (1 / 2 : α) * v) z_logvar)
    let eps : Tensor α := ⟨std.shape, rng std.shape⟩
    do Tensor.add z_mu (← Tensor.mul eps std)
  else
    Except.ok z_mu

/-- `decode(mu, logvar, encoded_shape)`: reparameterize with the model's
training flag, reshape the latent to `encoded_shape`, and run the decoder. -/
def decode (exp : α → α) (rng : List Nat → List α)
    (m : AutoencoderConvolutionalVariational α)
    (mu logvar : Tensor α) (encoded_shape : List Nat) : Except PyError (Tensor α) := do
  let z ← reparameterize exp rng m.training mu logvar
  let nd_z ← z.view encoded_shape
  return m.decoder nd_z

/-- `forward`: the source reads `mu, logvar = self.encode(x)`, unpacking the
3-tuple returned by `encode` into two targets; in Python this raises
`ValueError: too many values to unpack (expected 2)` whenever `encode`
returns (and propagates the exception of `encode` otherwise), so the
subsequent `self.decode(mu, logvar)` line is never reached. -/
def forward (m : AutoencoderConvolutionalVariational α) (x : Tensor α) :
    Except PyError (Tensor α × Tensor α × Tensor α) := do
  let _ ← encode m x
  Except.error (PyError.valueError "too many values to unpack (expected 2)")

/-- `sample(nb_samples)`: draw `randn([nb_samples, z_size])` (the draw
supplied by the `rng` oracle), reshape it with `view` to the
construction-time `encoding_shape` stored on the model, and decode. -/
def sample (rng : List Nat → List α)
    (m : AutoencoderConvolutionalVariational α) (nb_samples : Nat) :
    Except PyError (Tensor α) := do
  let random_z : Tensor α := ⟨[nb_samples, m.z_size], rng [nb_samples, m.z_size]⟩
  let random_z ← random_z.view m.encoding_shape
  return m.decoder random_z

/-- The elementwise Kullback-Leibler integrand of both loss functions:
`-0.5 * (1 + logvar - mu.pow(2) - logvar.exp())`, evaluated step by step as in
the source. -/
def kl_elementwise (exp : α → α) (mu logvar : Tensor α) : Except PyError (Tensor α) := do
  let t1 := Tensor.map (fun v => 1 + v) logvar
  let t2 ← Tensor.sub t1 (Tensor.map (fun v => v ^ 2) mu)
  let t3 ← Tensor.sub t2 (Tensor.map exp logvar)
  return Tensor.map (fun v => -(1 / 2 : α) * v) t3

/-- The reconstruction-loss dispatch of `loss_function`: the if/elif chain on
`recon_loss_name` selecting among the four external loss primitives, with the
`NotImplementedError` fallback. -/
def selectReconLoss (F_bcel F_bce F_mse pairwiseL1 : Tensor α → Tensor α → Tensor α)
    (recon_loss_name : String) (recon_x x : Tensor α) : Except PyError (Tensor α) :=
  if recon_loss_name = "BCEL" then Except.ok (F_bcel recon_x x)
  else if recon_loss_name = "BCE" then Except.ok (F_bce recon_x x)
  else if recon_loss_name = "MSE" then Except.ok (F_mse recon_x x)
  else if recon_loss_name = "L1" then Except.ok (pairwiseL1 recon_x x)
  else Except.error (PyError.notImplementedError ("loss not implemented=" ++ recon_loss_name))

/-- `loss_function` (static): look up the input tensor in the batch (Python
`batch[x_input_name]`, a `KeyError` when absent), dispatch the reconstruction
loss by name, reduce it to one value per sample by `flatten(_, 1).mean(dim=1)`,
compute the Kullback-Leibler term the same way, and return a `LossOutput`
dict with the reconstruction entry under `recon_loss_name` and the weighted
KL entry under `kl`.  The Python defaults are `recon_loss_name='BCEL'` and
`kullback_leibler_weight=0.2`. -/
def loss_function (exp : α → α)
    (F_bcel F_bce F_mse pairwiseL1 : Tensor α → Tensor α → Tensor α)
    (batch : List (String × Tensor α)) (model_output : Tensor α)
    (encoding : Tensor α × Tensor α × List Nat) (x_input_name : String)
    (recon_loss_name : String) (kullback_leibler_weight : α) :
    Except PyError (LossOutput α) := do
  let x ← match batch.lookup x_input_name with
    | some x => Except.ok x
    | none => Except.error (PyError.keyError x_input_name)
  let recon_x := model_output
  let (mu, logvar, _) := encoding
  let recon_loss ← selectReconLoss F_bcel F_bce F_mse pairwiseL1 recon_loss_name recon_x x
  let recon_loss ← recon_loss.flatten1
  let recon_loss ← recon_loss.meanDim1
  let kl ← kl_elementwise exp mu logvar
  let kl ← kl.flatten1
  let kl ← kl.meanDim1
  return ⟨setItem (setItem [] recon_loss_name recon_loss) "kl"
            (Tensor.map (fun v => v * kullback_leibler_weight) kl)⟩

/-- `loss_function_v2` (static): call the externally supplied
`recon_loss_fn(batch, model_output)` (its result is a `LossOutput` by the
`isinstance` assertion, which the embedding's types make vacuous), compute
the Kullback-Leibler term exactly as in `loss_function`, and set it, scaled
by the weight, under the key `kl` of the returned object's `losses` dict.
The commented-out reduction lines of the source are not executed.  The
Python default is `kullback_leibler_weight=0.2`. -/
def loss_function_v2 (exp : α → α)
    (batch : List (String × Tensor α)) (model_output : Tensor α)
    (encoding : Tensor α × Tensor α × List Nat)
    (recon_loss_fn : List (String × Tensor α) → Tensor α → LossOutput α)
    (kullback_leibler_weight : α) : Except PyError (LossOutput α) := do
  let recon_loss := recon_loss_fn batch model_output
  let (mu, logvar, _) := encoding
  let kl ← kl_elementwise exp mu logvar
  let kl ← kl.flatten1
  let kl ← kl.meanDim1
  return ⟨setItem recon_loss.losses "kl"
            (Tensor.map (fun v => v * kullback_leibler_weight) kl)⟩

/-- `encode` performs no assignment to any attribute of `self`; the
post-state of a call is the receiver unchanged, returned explicitly here so
that immutability is a provable statement. -/
def encodeS (m : AutoencoderConvolutionalVariational α) (x : Tensor α) :
    Except PyError (Tensor α × Tensor α × List Nat) × AutoencoderConvolutionalVariational α :=
  (encode m x, m)

/-- `decode` performs no assignment to any attribute of `self`. -/
def decodeS (exp : α → α) (rng : List Nat → List α)
    (m : AutoencoderConvolutionalVariational α)
    (mu logvar : Tensor α) (encoded_shape : List Nat) :
    Except PyError (Tensor α) × AutoencoderConvolutionalVariational α :=
  (decode exp rng m mu logvar encoded_shape, m)

/-- `forward` performs no assignment to any attribute of `self`. -/
def forwardS (m : AutoencoderConvolutionalVariational α) (x : Tensor α) :
    Except PyError (Tensor α × Tensor α × Tensor α) × AutoencoderConvolutionalVariational α :=
  (forward m x, m)

/-- `sample` performs no assignment to any attribute of `self`. -/
def sampleS (rng : List Nat → List α)
    (m : AutoencoderConvolutionalVariational α) (nb_samples : Nat) :
    Except PyError (Tensor α) × AutoencoderConvolutionalVariational α :=
  (sample rng m nb_samples, m)

end AutoencoderConvolutionalVariational

/-- The conditioned diffusion wrapper of `scripts/diffusion/06_mnist_noising.py`:
an opaque base denoising network plus the keyword name of the conditioning
image. -/
structure DiffusionModelUNetConditioned (α : Type) where
  base_model : Tensor α → Tensor α → Tensor α
  image_conditioning_name : String

namespace DiffusionModelUNetConditioned

variable {α : Type} [Field α]

/-- `forward(x, t, **kwargs)`: `kwargs.get(name)` (None when absent), an
assertion that the conditioning tensor is present, an assertion that its
`shape[2:]` equals `x.shape[2:]` (this second `assert` carries no message),
then `torch.cat([x, image_conditioning], dim=1)` and the base network on the
concatenation and `t`. -/
def forward (m : DiffusionModelUNetConditioned α) (x t : Tensor α)
    (kwargs : List (String × Tensor α)) : Except PyError (Tensor α) := do
  let image_conditioning ← match kwargs.lookup m.image_conditioning_name with
    | some c => Except.ok c
    | none => Except.error (PyError.assertionError
        ("missing input=" ++ m.image_conditioning_name))
  if image_conditioning.shape.drop 2 = x.shape.drop 2 then do
    let x_cond ← Tensor.catDim1 x image_conditioning
    return m.base_model x_cond t
  else
    Except.error (PyError.assertionError "")

end DiffusionModelUNetConditioned

/-- The specification's formula for the weighted Kullback-Leibler component
(stated from the claim's words, to be compared with the code): the
`kullback_leibler_weight` times the mean over all non-batch elements of
`-0.5 * (1 + logvar - mean^2 - exp(logvar))`, computed per batch sample. -/
def klSpec {α : Type} [Field α] (exp : α → α) (klw : α) (mu logvar : Tensor α) : Tensor α :=
  ⟨[mu.shape.headD 0],
    (List.range (mu.shape.headD 0)).map (fun i =>
      klw * ((List.zipWith (fun mv lvv => -(1 / 2 : α) * (1 + lvv - mv ^ 2 - exp lvv))
          ((mu.data.drop (i * (mu.shape.drop 1).prod)).take ((mu.shape.drop 1).prod))
          ((logvar.data.drop (i * (mu.shape.drop 1).prod)).take ((mu.shape.drop 1).prod))).sum /
        (((mu.shape.drop 1).prod : Nat) : α)))⟩

/-- The computation does not fail with a `NotImplementedError`. -/
def NoNotImpl {β : Type} (e : Except PyError β) : Prop :=
  ∀ msg, e ≠ Except.error (PyError.notImplementedError msg)

/-! ### Concrete objects used by witnesses and counterexamples -/

/-- Identity module over rational tensors, used as a concrete encoder/decoder. -/
def idQ : Tensor ℚ → Tensor ℚ := fun t => t

/-- A concrete rng oracle: an all-zeros draw of the requested shape. -/
def rngZero : List Nat → List ℚ := fun s => List.replicate s.prod 0

/-- A concrete rng oracle: an all-ones draw of the requested shape. -/
def rngOne : List Nat → List ℚ := fun s => List.replicate s.prod 1

/-- A concrete stand-in for `exp` (only the evaluation points a witness uses
matter): the constant-one function, which satisfies `exp 0 = 1`. -/
def expOneQ : ℚ → ℚ := fun _ => 1

/-- A VAE built with dry-run input of shape `[2, 4]` (batch size 2), identity
encoder and decoder, and `z_size = 2`, so that `encoding_shape = [2, 4]`. -/
def vaeSampleModel : AutoencoderConvolutionalVariational ℚ :=
  AutoencoderConvolutionalVariational.init ⟨[2, 4], List.replicate 8 0⟩ 4 idQ idQ 2
    (fun _ _ => 0) (fun _ => 0) (fun _ _ => 0) (fun _ => 0) false

/-- A VAE built with dry-run input of shape `[1, 2]`, identity encoder and
decoder, and `z_size = 2 = encoder_output_size`, in evaluation mode. -/
def vaeRoundModel : AutoencoderConvolutionalVariational ℚ :=
  AutoencoderConvolutionalVariational.init ⟨[1, 2], [0, 0]⟩ 4 idQ idQ 2
    (fun _ _ => 0) (fun _ => 0) (fun _ _ => 0) (fun _ => 0) false

/-- A concrete conditioned diffusion wrapper: the base network returns its
first argument, and the conditioning keyword is named `images`. -/
def dmWrap : DiffusionModelUNetConditioned ℚ := ⟨fun a _ => a, "images"⟩

/-- A one-entry concrete batch. -/
def batchW : List (String × Tensor ℚ) := [("x", ⟨[1, 2], [1, 2]⟩)]

/-- A concrete reconstruction-loss primitive: return the reconstruction. -/
def reconW : Tensor ℚ → Tensor ℚ → Tensor ℚ := fun a _ => a

/-- A concrete all-zero mean / log-variance tensor of shape `[1, 2]`. -/
def muZeroW : Tensor ℚ := ⟨[1, 2], [0, 0]⟩

/-- A concrete structured-loss function for `loss_function_v2`. -/
def fnW : List (String × Tensor ℚ) → Tensor ℚ → LossOutput ℚ :=
  fun _ _ => ⟨[("l1", ⟨[1], [7]⟩)]⟩

/-! ### Helper lemmas -/

section Helpers

variable {α : Type} [Field α]

lemma zipAddMulExp (f : α → α) :
    ∀ (a b c : List α),
      List.zipWith (fun x y => x + y) a (List.zipWith (fun x y => x * y) b (c.map f)) =
      List.zipWith (fun p l => p.1 + p.2 * f l) (a.zip b) c := by
  intro a
  induction a with
  | nil => intro b c; simp
  | cons x xs ih =>
    intro b c
    cases b with
    | nil => simp
    | cons y ys =>
      cases c with
      | nil => simp
      | cons z zs => simp [ih]

lemma klDataCollapse (exp : α → α) :
    ∀ (a b : List α),
      List.map (fun v => -(1 / 2 : α) * v)
        (List.zipWith (fun x y => x - y)
          (List.zipWith (fun x y => x - y) (b.map (fun v => 1 + v)) (a.map (fun v => v ^ 2)))
          (b.map exp)) =
      List.zipWith (fun mv lvv => -(1 / 2 : α) * (1 + lvv - mv ^ 2 - exp lvv)) a b := by
  intro a
  induction a with
  | nil => intro b; simp
  | cons x xs ih =>
    intro b
    cases b with
    | nil => simp
    | cons y ys =>
      simp only [List.map_cons, List.zipWith_cons_cons, ih]

lemma exists_of_mem_zipWith {β γ δ : Type} (f : β → γ → δ) :
    ∀ (a : List β) (b : List γ) (x : δ), x ∈ List.zipWith f a b →
      ∃ u, u ∈ a ∧ ∃ v, v ∈ b ∧ x = f u v := by
  intro a
  induction a with
  | nil => intro b x hx; simp at hx
  | cons u us ih =>
    intro b x hx
    cases b with
    | nil => simp at hx
    | cons v vs =>
      simp only [List.zipWith_cons_cons, List.mem_cons] at hx
      rcases hx with h | h
      · exact ⟨u, by simp, v, by simp, h⟩
      · rcases ih vs x h with ⟨u2, hu2, v2, hv2, hx2⟩
        exact ⟨u2, by simp [hu2], v2, by simp [hv2], hx2⟩

lemma kl_elementwise_eq (exp : α → α) (mu logvar : Tensor α)
    (hs : mu.shape = logvar.shape) :
    AutoencoderConvolutionalVariational.kl_elementwise exp mu logvar =
      Except.ok ⟨mu.shape,
        List.zipWith (fun mv lvv => -(1 / 2 : α) * (1 + lvv - mv ^ 2 - exp lvv))
          mu.data logvar.data⟩ := by
  have h1 : Tensor.sub (Tensor.map (fun v => 1 + v) logvar)
      (Tensor.map (fun v => v ^ 2) mu) =
      Except.ok ⟨logvar.shape,
        List.zipWith (fun x y => x - y) (logvar.data.map (fun v => 1 + v))
          (mu.data.map (fun v => v ^ 2))⟩ := by
    unfold Tensor.sub Tensor.zipSameShape Tensor.map
    rw [if_pos hs.symm]
  have h2 : Tensor.sub
      ⟨logvar.shape, List.zipWith (fun x y => x - y) (logvar.data.map (fun v => 1 + v))
          (mu.data.map (fun v => v ^ 2))⟩
      (Tensor.map exp logvar) =
      Except.ok ⟨logvar.shape,
        List.zipWith (fun x y => x - y)
          (List.zipWith (fun x y => x - y) (logvar.data.map (fun v => 1 + v))
            (mu.data.map (fun v => v ^ 2)))
          (logvar.data.map exp)⟩ := by
    unfold Tensor.sub Tensor.zipSameShape Tensor.map
    rw [if_pos rfl]
  unfold AutoencoderConvolutionalVariational.kl_elementwise
  simp only [h1, h2, Bind.bind, Except.bind, pure, Except.pure]
  simp only [Tensor.map]
  rw [klDataCollapse exp mu.data logvar.data, hs]

lemma kl_steps (exp : α → α) (klw : α) (mu logvar : Tensor α)
    (n d : Nat) (rest : List Nat) (hs : mu.shape = logvar.shape)
    (hmu : mu.shape = n :: d :: rest) :
    ∃ K K2 K3 : Tensor α,
      AutoencoderConvolutionalVariational.kl_elementwise exp mu logvar = Except.ok K ∧
      K.flatten1 = Except.ok K2 ∧ K2.meanDim1 = Except.ok K3 ∧
      Tensor.map (fun v => v * klw) K3 = klSpec exp klw mu logvar := by
  refine ⟨⟨mu.shape,
      List.zipWith (fun mv lvv => -(1 / 2 : α) * (1 + lvv - mv ^ 2 - exp lvv))
        mu.data logvar.data⟩,
    ⟨[n, (d :: rest).prod],
      List.zipWith (fun mv lvv => -(1 / 2 : α) * (1 + lvv - mv ^ 2 - exp lvv))
        mu.data logvar.data⟩,
    ⟨[n], (List.range n).map (fun i =>
      (((List.zipWith (fun mv lvv => -(1 / 2 : α) * (1 + lvv - mv ^ 2 - exp lvv))
          mu.data logvar.data).drop (i * (d :: rest).prod)).take ((d :: rest).prod)).sum /
        ((((d :: rest).prod : Nat)) : α))⟩,
    kl_elementwise_eq exp mu logvar hs, ?_, rfl, ?_⟩
  · simp [Tensor.flatten1, hmu]
  · unfold Tensor.map klSpec
    rw [hmu]
    simp only [List.headD, List.drop_succ_cons, List.drop_zero, List.map_map]
    refine congrArg (fun dd => Tensor.mk [n] dd) ?_
    refine List.map_congr_left ?_
    intro i _
    simp only [Function.comp_apply]
    rw [List.drop_zipWith, List.take_zipWith, mul_comm]

lemma lookup_cons_pair {β : Type} (a k : String) (b : β) (tl : List (String × β)) :
    List.lookup k ((a, b) :: tl) = if a = k then some b else List.lookup k tl := by
  by_cases h : a = k
  · subst h
    simp [List.lookup]
  · have hb : (k == a) = false := beq_eq_false_iff_ne.mpr (Ne.symm h)
    simp [List.lookup, hb, h]

lemma lookup_setItem_self {β : Type} (d : List (String × β)) (k : String) (v : β) :
    List.lookup k (setItem d k v) = some v := by
  induction d with
  | nil => simp [setItem, List.lookup]
  | cons p tl ih =>
    rcases p with ⟨a, b⟩
    by_cases hp : a = k
    · subst hp
      have hset : setItem ((a, b) :: tl) a v =
          (a, v) :: tl.map (fun r => if r.1 = a then (a, v) else r) := by
        simp [setItem, List.any_cons]
      rw [hset, lookup_cons_pair, if_pos rfl]
    · cases ha : tl.any (fun r => decide (r.1 = k)) with
      | true =>
        have hset : setItem ((a, b) :: tl) k v =
            (a, b) :: tl.map (fun r => if r.1 = k then (k, v) else r) := by
          simp [setItem, List.any_cons, ha, hp]
        have hset2 : setItem tl k v = tl.map (fun r => if r.1 = k then (k, v) else r) := by
          simp [setItem, ha]
        rw [hset, lookup_cons_pair, if_neg hp, ← hset2]
        exact ih
      | false =>
        have hset : setItem ((a, b) :: tl) k v = (a, b) :: (tl ++ [(k, v)]) := by
          simp [setItem, List.any_cons, ha, hp]
        have hset2 : setItem tl k v = tl ++ [(k, v)] := by
          simp [setItem, ha]
        rw [hset, lookup_cons_pair, if_neg hp, ← hset2]
        exact ih

lemma lookup_setItem_ne {β : Type} (d : List (String × β)) (k q : String) (v : β)
    (h : q ≠ k) : List.lookup q (setItem d k v) = List.lookup q d := by
  induction d with
  | nil =>
    have hb : (q == k) = false := beq_eq_false_iff_ne.mpr h
    simp [setItem, List.lookup, hb]
  | cons p tl ih =>
    rcases p with ⟨a, b⟩
    cases ha : tl.any (fun r => decide (r.1 = k)) with
    | true =>
      by_cases hp : a = k
      · subst hp
        have hset : setItem ((a, b) :: tl) a v =
            (a, v) :: tl.map (fun r => if r.1 = a then (a, v) else r) := by
          simp [setItem, List.any_cons]
        have hset2 : setItem tl a v = tl.map (fun r => if r.1 = a then (a, v) else r) := by
          simp [setItem, ha]
        rw [hset, lookup_cons_pair, lookup_cons_pair, if_neg (Ne.symm h),
          if_neg (Ne.symm h), ← hset2]
        exact ih
      · have hset : setItem ((a, b) :: tl) k v =
            (a, b) :: tl.map (fun r => if r.1 = k then (k, v) else r) := by
          simp [setItem, List.any_cons, ha, hp]
        have hset2 : setItem tl k v = tl.map (fun r => if r.1 = k then (k, v) else r) := by
          simp [setItem, ha]
        rw [hset, lookup_cons_pair, lookup_cons_pair]
        by_cases haq : a = q
        · rw [if_pos haq, if_pos haq]
        · rw [if_neg haq, if_neg haq, ← hset2]
          exact ih
    | false =>
      by_cases hp : a = k
      · subst hp
        have hset : setItem ((a, b) :: tl) a v =
            (a, v) :: tl.map (fun r => if r.1 = a then (a, v) else r) := by
          simp [setItem, List.any_cons]
        have hnok : ∀ r ∈ tl, ¬(r.1 = a) := by
          intro r hr
          have := List.any_eq_false.mp ha r hr
          simpa using this
        have hmap : tl.map (fun r => if r.1 = a then (a, v) else r) = tl := by
          refine (List.map_congr_left ?_).trans (List.map_id tl)
          intro r hr
          simp [hnok r hr]
        rw [hset, hmap, lookup_cons_pair, lookup_cons_pair, if_neg (Ne.symm h),
          if_neg (Ne.symm h)]
      · have hset : setItem ((a, b) :: tl) k v = (a, b) :: (tl ++ [(k, v)]) := by
          simp [setItem, List.any_cons, ha, hp]
        have hset2 : setItem tl k v = tl ++ [(k, v)] := by
          simp [setItem, ha]
        rw [hset, lookup_cons_pair, lookup_cons_pair]
        by_cases haq : a = q
        · rw [if_pos haq, if_pos haq]
        · rw [if_neg haq, if_neg haq, ← hset2]
          exact ih

lemma noNotImpl_ok {β : Type} (a : β) : NoNotImpl (Except.ok a) := by
  intro msg h
  exact Except.noConfusion h

lemma noNotImpl_bind {β γ : Type} {e : Except PyError β} {f : β → Except PyError γ}
    (he : NoNotImpl e) (hf : ∀ a, NoNotImpl (f a)) : NoNotImpl (e >>= f) := by
  cases e with
  | error err =>
    intro msg h
    exact he msg (by simpa [Bind.bind, Except.bind] using h)
  | ok a =>
    intro msg h
    exact hf a msg (by simpa [Bind.bind, Except.bind] using h)

lemma noNotImpl_flatten1 (t : Tensor α) : NoNotImpl t.flatten1 := by
  intro msg
  unfold Tensor.flatten1
  cases t.shape with
  | nil => simp
  | cons a s => cases s <;> simp

lemma noNotImpl_meanDim1 (t : Tensor α) : NoNotImpl t.meanDim1 := by
  intro msg
  unfold Tensor.meanDim1
  cases h : t.shape with
  | nil => simp
  | cons a s =>
    cases s with
    | nil => simp
    | cons b s2 => cases s2 <;> simp

lemma noNotImpl_zipSameShape (f : α → α → α) (a b : Tensor α) :
    NoNotImpl (Tensor.zipSameShape f a b) := by
  intro msg
  unfold Tensor.zipSameShape
  by_cases h : a.shape = b.shape <;> simp [h]

lemma noNotImpl_kl_elementwise (exp : α → α) (mu logvar : Tensor α) :
    NoNotImpl (AutoencoderConvolutionalVariational.kl_elementwise exp mu logvar) := by
  unfold AutoencoderConvolutionalVariational.kl_elementwise
  exact noNotImpl_bind (noNotImpl_zipSameShape _ _ _) (fun t2 =>
    noNotImpl_bind (noNotImpl_zipSameShape _ _ _) (fun t3 => noNotImpl_ok _))

lemma noNotImpl_of_eq_ok {β : Type} {e : Except PyError β} (h : ∃ a, e = Except.ok a) :
    NoNotImpl e := by
  rcases h with ⟨a, rfl⟩
  exact noNotImpl_ok a

lemma noNotImpl_pure {β : Type} (a : β) :
    NoNotImpl (pure a : Except PyError β) := by
  intro msg h
  exact Except.noConfusion h

lemma reparameterize_shape (exp : α → α) (rng : List Nat → List α) (tr : Bool)
    (z_mu z_logvar : Tensor α) (hs : z_mu.shape = z_logvar.shape) :
    ∃ dz, AutoencoderConvolutionalVariational.reparameterize exp rng tr z_mu z_logvar =
      Except.ok ⟨z_mu.shape, dz⟩ := by
  cases tr with
  | false => exact ⟨z_mu.data, rfl⟩
  | true =>
    refine ⟨List.zipWith (fun x y => x + y) z_mu.data
      (List.zipWith (fun x y => x * y) (rng z_logvar.shape)
        ((z_logvar.data.map (fun v => (1 / 2 : α) * v)).map exp)), ?_⟩
    unfold AutoencoderConvolutionalVariational.reparameterize
    simp only [if_pos rfl, Tensor.map, Tensor.mul, Tensor.add, Tensor.zipSameShape, hs,
      Bind.bind, Except.bind, if_true, if_pos rfl]

end Helpers

/-! ### Claim theorems -/

/-- C1: the claim states that `forward(x)` returns the 3-tuple
`(reconstruction, mean, log-variance)` and does not fail on encoder-accepted
inputs.  In the source, however, `forward` unpacks the 3-tuple returned by
`encode` into only two targets (`mu, logvar = self.encode(x)`), so every call
raises `ValueError` (and `self.decode(mu, logvar)` would additionally be
missing its `encoded_shape` argument).  `forward` therefore never returns
normally, for any model and any input. -/
theorem vae_forward_always_raises {α : Type} [Field α]
    (m : AutoencoderConvolutionalVariational α) (x : Tensor α) :
    (AutoencoderConvolutionalVariational.forward m x).isOk = false := by
  unfold AutoencoderConvolutionalVariational.forward
  cases h : AutoencoderConvolutionalVariational.encode m x <;>
    simp [h, Except.isOk, Except.toBool, Bind.bind, Except.bind]

/-- C2: the claim states `sample(nb_samples)` returns a batch whose leading
dimension equals `nb_samples`.  In the source, the `[nb_samples, z_size]`
normal draw is reshaped with `view` to the construction-time
`encoding_shape` stored on the model (the commented-out lines reshaping to
`[nb_samples, z_size, 1, ...]` are dead), so the leading dimension is the
dry-run batch size.  Concretely: a model constructed with a dry run of batch
size 2 (`encoding_shape = [2, 4]`, `z_size = 2`) returns a batch of leading
dimension 2 from `sample(4)`. -/
theorem vae_sample_batch_dim_is_construction_batch :
    (AutoencoderConvolutionalVariational.sample rngZero vaeSampleModel 4).toOption.map
        Tensor.shape = some [2, 4] ∧ (2 : Nat) ≠ 4 := by
  exact ⟨rfl, by decide⟩

/-- C3: `reparameterize(training, z_mu, z_logvar)` with the training flag set
returns `z_mu + eps * exp(0.5 * z_logvar)` elementwise, where `eps` is the
standard-normal draw at `z_mu`'s shape; with the flag cleared it returns the
mean unchanged, independently of the noise oracle, so any two
evaluation-mode calls with the same mean and log-variance agree. -/
theorem reparameterize_spec {α : Type} [Field α] (exp : α → α)
    (rng rng2 : List Nat → List α) (z_mu z_logvar : Tensor α)
    (h : z_mu.shape = z_logvar.shape) :
    AutoencoderConvolutionalVariational.reparameterize exp rng true z_mu z_logvar =
      Except.ok ⟨z_mu.shape,
        List.zipWith (fun p l => p.1 + p.2 * exp ((1 / 2 : α) * l))
          (z_mu.data.zip (rng z_mu.shape)) z_logvar.data⟩ ∧
    AutoencoderConvolutionalVariational.reparameterize exp rng false z_mu z_logvar =
      Except.ok z_mu ∧
    AutoencoderConvolutionalVariational.reparameterize exp rng false z_mu z_logvar =
      AutoencoderConvolutionalVariational.reparameterize exp rng2 false z_mu z_logvar := by
  refine ⟨?_, rfl, rfl⟩
  unfold AutoencoderConvolutionalVariational.reparameterize
  simp only [if_pos rfl, Tensor.map, Tensor.mul, Tensor.add, Tensor.zipSameShape, h,
    Bind.bind, Except.bind, if_true]
  simp only [List.map_map, ← h, if_pos rfl, Function.comp_def]
  rw [zipAddMulExp (fun v => exp ((1 / 2 : α) * v)) z_mu.data (rng z_mu.shape) z_logvar.data]

/-- Concrete instantiation of `reparameterize_spec` at rational tensors of
shape `[1, 1]` with distinct noise oracles. -/
theorem reparameterize_spec_witness :
    (⟨[1, 1], [(2 : ℚ)]⟩ : Tensor ℚ).shape = (⟨[1, 1], [(4 : ℚ)]⟩ : Tensor ℚ).shape ∧
    (AutoencoderConvolutionalVariational.reparameterize expOneQ rngZero true
        ⟨[1, 1], [(2 : ℚ)]⟩ ⟨[1, 1], [(4 : ℚ)]⟩ =
      Except.ok ⟨[1, 1],
        List.zipWith (fun p l => p.1 + p.2 * expOneQ ((1 / 2 : ℚ) * l))
          (([(2 : ℚ)]).zip (rngZero [1, 1])) [(4 : ℚ)]⟩ ∧
    AutoencoderConvolutionalVariational.reparameterize expOneQ rngZero false
        ⟨[1, 1], [(2 : ℚ)]⟩ ⟨[1, 1], [(4 : ℚ)]⟩ =
      Except.ok ⟨[1, 1], [(2 : ℚ)]⟩ ∧
    AutoencoderConvolutionalVariational.reparameterize expOneQ rngZero false
        ⟨[1, 1], [(2 : ℚ)]⟩ ⟨[1, 1], [(4 : ℚ)]⟩ =
      AutoencoderConvolutionalVariational.reparameterize expOneQ rngOne false
        ⟨[1, 1], [(2 : ℚ)]⟩ ⟨[1, 1], [(4 : ℚ)]⟩) :=
  ⟨rfl, reparameterize_spec expOneQ rngZero rngOne _ _ rfl⟩

/-- C9: after `__init__`, the input dimension of both linear projections
equals the product of the non-batch dimensions of the encoder's output on the
construction-time dry-run input; and `encode`, `decode`, `forward` and
`sample` assign no attribute of the model, so the whole model object — in
particular `z_mu`, `z_logvar`, `encoder_output_size` and `encoding_shape` —
is unchanged by every operation (`loss_function` and `loss_function_v2` are
static methods that receive no model object at all). -/
theorem init_projections_and_immutable {α : Type} [Field α]
    (x : Tensor α) (cnn_dim : Int) (encoder decoder : Tensor α → Tensor α) (z_size : Nat)
    (wlv : Nat → Nat → α) (blv : Nat → α) (wmu : Nat → Nat → α) (bmu : Nat → α)
    (training : Bool) :
    (AutoencoderConvolutionalVariational.init x cnn_dim encoder decoder z_size
        wlv blv wmu bmu training).z_mu.inFeatures = ((encoder x).shape.drop 1).prod ∧
    (AutoencoderConvolutionalVariational.init x cnn_dim encoder decoder z_size
        wlv blv wmu bmu training).z_logvar.inFeatures = ((encoder x).shape.drop 1).prod ∧
    (∀ (m : AutoencoderConvolutionalVariational α) x2,
      (AutoencoderConvolutionalVariational.encodeS m x2).2 = m) ∧
    (∀ (m : AutoencoderConvolutionalVariational α) exp rng mu logvar es,
      (AutoencoderConvolutionalVariational.decodeS exp rng m mu logvar es).2 = m) ∧
    (∀ (m : AutoencoderConvolutionalVariational α) x2,
      (AutoencoderConvolutionalVariational.forwardS m x2).2 = m) ∧
    (∀ (m : AutoencoderConvolutionalVariational α) rng nb,
      (AutoencoderConvolutionalVariational.sampleS rng m nb).2 = m) :=
  ⟨rfl, rfl, fun _ _ => rfl, fun _ _ _ _ _ _ => rfl, fun _ _ => rfl, fun _ _ _ => rfl⟩

/-- C10: `decode` reshapes the reparameterized latent with `view` to the
shape passed as its `encoded_shape` argument — the decoder receives a tensor
of exactly that shape — and its result does not depend on the
`encoding_shape` stored on the model at construction time. -/
theorem decode_uses_argument_shape {α : Type} [Field α] (exp : α → α)
    (rng : List Nat → List α) (m : AutoencoderConvolutionalVariational α)
    (mu logvar : Tensor α) (es : List Nat)
    (hs : mu.shape = logvar.shape) (hnum : mu.shape.prod = es.prod) :
    (∃ zdata : List α,
      AutoencoderConvolutionalVariational.decode exp rng m mu logvar es =
        Except.ok (m.decoder ⟨es, zdata⟩)) ∧
    ∀ s, AutoencoderConvolutionalVariational.decode exp rng
        { m with encoding_shape := s } mu logvar es =
      AutoencoderConvolutionalVariational.decode exp rng m mu logvar es := by
  refine ⟨?_, fun s => rfl⟩
  unfold AutoencoderConvolutionalVariational.decode
    AutoencoderConvolutionalVariational.reparameterize
  cases m.training with
  | false =>
    refine ⟨mu.data, ?_⟩
    simp [Tensor.view, hnum, Bind.bind, Except.bind, pure, Except.pure]
  | true =>
    refine ⟨List.zipWith (fun x y => x + y) mu.data
      (List.zipWith (fun x y => x * y) (rng logvar.shape)
        ((logvar.data.map (fun v => (1 / 2 : α) * v)).map exp)), ?_⟩
    simp only [if_pos rfl, Tensor.map, Tensor.mul, Tensor.add, Tensor.zipSameShape,
      Bind.bind, Except.bind, hs, if_true, if_pos rfl]
    simp only [Tensor.view]
    rw [if_pos]
    · rfl
    · simpa [hs] using hnum

/-- Concrete instantiation of `decode_uses_argument_shape`: shape-`[1, 2]`
mean and log-variance decoded at caller-supplied shape `[2, 1]`. -/
theorem decode_uses_argument_shape_witness :
    ((⟨[1, 2], [(0 : ℚ), 0]⟩ : Tensor ℚ).shape = (⟨[1, 2], [(3 : ℚ), 5]⟩ : Tensor ℚ).shape ∧
      (⟨[1, 2], [(0 : ℚ), 0]⟩ : Tensor ℚ).shape.prod = ([2, 1] : List Nat).prod) ∧
    ((∃ zdata : List ℚ,
      AutoencoderConvolutionalVariational.decode expOneQ rngZero vaeSampleModel
          ⟨[1, 2], [(0 : ℚ), 0]⟩ ⟨[1, 2], [(3 : ℚ), 5]⟩ [2, 1] =
        Except.ok (vaeSampleModel.decoder ⟨[2, 1], zdata⟩)) ∧
    ∀ s, AutoencoderConvolutionalVariational.decode expOneQ rngZero
        { vaeSampleModel with encoding_shape := s }
        ⟨[1, 2], [(0 : ℚ), 0]⟩ ⟨[1, 2], [(3 : ℚ), 5]⟩ [2, 1] =
      AutoencoderConvolutionalVariational.decode expOneQ rngZero vaeSampleModel
        ⟨[1, 2], [(0 : ℚ), 0]⟩ ⟨[1, 2], [(3 : ℚ), 5]⟩ [2, 1]) :=
  ⟨⟨rfl, rfl⟩, decode_uses_argument_shape expOneQ rngZero vaeSampleModel _ _ [2, 1] rfl rfl⟩

/-- C4: in both `loss_function` and `loss_function_v2`, the `kl` entry of the
returned `LossOutput` equals the `kullback_leibler_weight` times the
per-sample mean over all non-batch elements of
`-0.5 * (1 + logvar - mean^2 - exp(logvar))` (the function `klSpec`); and
`klSpec` is the all-zeros vector whenever every element of the mean and of
the log-variance is zero (using `exp 0 = 1`). -/
theorem kl_component_eq_spec {α : Type} [Field α] (exp : α → α) (klw : α)
    (F_bcel F_bce F_mse pairwiseL1 : Tensor α → Tensor α → Tensor α)
    (batch : List (String × Tensor α)) (model_output x rl : Tensor α)
    (mu logvar : Tensor α) (es : List Nat) (x_input_name recon_loss_name : String)
    (fn : List (String × Tensor α) → Tensor α → LossOutput α)
    (n d nr dr : Nat) (rest restr : List Nat)
    (hb : batch.lookup x_input_name = some x)
    (hsel : AutoencoderConvolutionalVariational.selectReconLoss F_bcel F_bce F_mse pairwiseL1
      recon_loss_name model_output x = Except.ok rl)
    (hrl : rl.shape = nr :: dr :: restr)
    (hs : mu.shape = logvar.shape) (hmu : mu.shape = n :: d :: rest) :
    (∃ out, AutoencoderConvolutionalVariational.loss_function exp F_bcel F_bce F_mse pairwiseL1
        batch model_output (mu, logvar, es) x_input_name recon_loss_name klw = Except.ok out ∧
      out.losses.lookup "kl" = some (klSpec exp klw mu logvar)) ∧
    (∃ out2, AutoencoderConvolutionalVariational.loss_function_v2 exp batch model_output
        (mu, logvar, es) fn klw = Except.ok out2 ∧
      out2.losses.lookup "kl" = some (klSpec exp klw mu logvar)) ∧
    (exp 0 = 1 → (∀ v ∈ mu.data, v = (0 : α)) → (∀ v ∈ logvar.data, v = (0 : α)) →
      klSpec exp klw mu logvar = ⟨[n], List.replicate n (0 : α)⟩) := by
  obtain ⟨K, K2, K3, hK, hK2, hK3, hmap⟩ := kl_steps exp klw mu logvar n d rest hs hmu
  have hfl : rl.flatten1 = Except.ok ⟨[nr, (dr :: restr).prod], rl.data⟩ := by
    simp [Tensor.flatten1, hrl]
  refine ⟨?_, ?_, ?_⟩
  · refine ⟨⟨setItem (setItem [] recon_loss_name
      ⟨[nr], (List.range nr).map (fun i =>
        ((rl.data.drop (i * (dr :: restr).prod)).take ((dr :: restr).prod)).sum /
          ((((dr :: restr).prod : Nat)) : α))⟩) "kl" (klSpec exp klw mu logvar)⟩,
      ?_, lookup_setItem_self _ _ _⟩
    have hmn : Tensor.meanDim1 ⟨[nr, (dr :: restr).prod], rl.data⟩ =
        Except.ok ⟨[nr], (List.range nr).map (fun i =>
          ((rl.data.drop (i * (dr :: restr).prod)).take ((dr :: restr).prod)).sum /
            ((((dr :: restr).prod : Nat)) : α))⟩ := rfl
    unfold AutoencoderConvolutionalVariational.loss_function
    simp only [hb, hsel, hfl, hmn, hK, hK2, hK3, hmap,
      Bind.bind, Except.bind, pure, Except.pure]
  · refine ⟨⟨setItem (fn batch model_output).losses "kl" (klSpec exp klw mu logvar)⟩,
      ?_, lookup_setItem_self _ _ _⟩
    unfold AutoencoderConvolutionalVariational.loss_function_v2
    simp only [hK, hK2, hK3, hmap, Bind.bind, Except.bind, pure, Except.pure]
  · intro hexp h0mu h0lv
    unfold klSpec
    rw [hmu]
    simp only [List.headD, List.drop_succ_cons, List.drop_zero]
    refine congrArg (fun dd => Tensor.mk [n] dd) ?_
    have hzero : ∀ i ∈ List.range n,
        klw * ((List.zipWith (fun mv lvv => -(1 / 2 : α) * (1 + lvv - mv ^ 2 - exp lvv))
          ((mu.data.drop (i * (d :: rest).prod)).take ((d :: rest).prod))
          ((logvar.data.drop (i * (d :: rest).prod)).take ((d :: rest).prod))).sum /
            ((((d :: rest).prod : Nat)) : α)) = 0 := by
      intro i _
      have hsum : (List.zipWith (fun mv lvv => -(1 / 2 : α) * (1 + lvv - mv ^ 2 - exp lvv))
          ((mu.data.drop (i * (d :: rest).prod)).take ((d :: rest).prod))
          ((logvar.data.drop (i * (d :: rest).prod)).take ((d :: rest).prod))).sum = 0 := by
        refine List.sum_eq_zero ?_
        intro y hy
        obtain ⟨u, hu, v, hv, hyv⟩ := exists_of_mem_zipWith _ _ _ _ hy
        have hu0 : u = 0 := h0mu u (List.mem_of_mem_drop (List.mem_of_mem_take hu))
        have hv0 : v = 0 := h0lv v (List.mem_of_mem_drop (List.mem_of_mem_take hv))
        rw [hyv, hu0, hv0, hexp]
        ring
      rw [hsum]
      simp
    calc (List.range n).map (fun i =>
          klw * ((List.zipWith (fun mv lvv => -(1 / 2 : α) * (1 + lvv - mv ^ 2 - exp lvv))
            ((mu.data.drop (i * (d :: rest).prod)).take ((d :: rest).prod))
            ((logvar.data.drop (i * (d :: rest).prod)).take ((d :: rest).prod))).sum /
              ((((d :: rest).prod : Nat)) : α)))
        = (List.range n).map (fun _ => (0 : α)) := List.map_congr_left hzero
      _ = List.replicate n (0 : α) := by
          rw [List.map_const']
          simp

/-- C5: with the input tensor present in the batch, `loss_function` fails
with a `NotImplementedError` exactly when the reconstruction-loss name lies
outside `{BCEL, BCE, MSE, L1}`; and for each name inside the set, the
dispatch `selectReconLoss` returns the corresponding external loss primitive
applied to the reconstruction and input (it never raises). -/
theorem loss_function_notimplemented_iff {α : Type} [Field α] (exp : α → α)
    (F_bcel F_bce F_mse pairwiseL1 : Tensor α → Tensor α → Tensor α)
    (batch : List (String × Tensor α)) (model_output x : Tensor α)
    (mu logvar : Tensor α) (es : List Nat)
    (x_input_name recon_loss_name : String) (klw : α)
    (hb : batch.lookup x_input_name = some x) :
    ((∃ msg, AutoencoderConvolutionalVariational.loss_function exp F_bcel F_bce F_mse pairwiseL1
        batch model_output (mu, logvar, es) x_input_name recon_loss_name klw =
        Except.error (PyError.notImplementedError msg)) ↔
      ¬(recon_loss_name = "BCEL" ∨ recon_loss_name = "BCE" ∨ recon_loss_name = "MSE" ∨
        recon_loss_name = "L1")) ∧
    AutoencoderConvolutionalVariational.selectReconLoss F_bcel F_bce F_mse pairwiseL1 "BCEL"
      model_output x = Except.ok (F_bcel model_output x) ∧
    AutoencoderConvolutionalVariational.selectReconLoss F_bcel F_bce F_mse pairwiseL1 "BCE"
      model_output x = Except.ok (F_bce model_output x) ∧
    AutoencoderConvolutionalVariational.selectReconLoss F_bcel F_bce F_mse pairwiseL1 "MSE"
      model_output x = Except.ok (F_mse model_output x) ∧
    AutoencoderConvolutionalVariational.selectReconLoss F_bcel F_bce F_mse pairwiseL1 "L1"
      model_output x = Except.ok (pairwiseL1 model_output x) := by
  refine ⟨⟨?_, ?_⟩, rfl, rfl, rfl, rfl⟩
  · rintro ⟨msg, hres⟩ hdis
    have hsafe : NoNotImpl (AutoencoderConvolutionalVariational.loss_function exp
        F_bcel F_bce F_mse pairwiseL1 batch model_output (mu, logvar, es)
        x_input_name recon_loss_name klw) := by
      unfold AutoencoderConvolutionalVariational.loss_function
      dsimp only
      rcases batch.lookup x_input_name with _ | y
      · intro m2 h2
        simp [Bind.bind, Except.bind] at h2
      · refine noNotImpl_bind (noNotImpl_ok _) (fun a => ?_)
        have hok : ∃ r, AutoencoderConvolutionalVariational.selectReconLoss
            F_bcel F_bce F_mse pairwiseL1 recon_loss_name model_output a = Except.ok r := by
          rcases hdis with h | h | h | h <;> subst h <;> exact ⟨_, rfl⟩
        refine noNotImpl_bind (noNotImpl_of_eq_ok hok) (fun rl => ?_)
        refine noNotImpl_bind (noNotImpl_flatten1 _) (fun r2 => ?_)
        refine noNotImpl_bind (noNotImpl_meanDim1 _) (fun r3 => ?_)
        refine noNotImpl_bind (noNotImpl_kl_elementwise _ _ _) (fun kl => ?_)
        refine noNotImpl_bind (noNotImpl_flatten1 _) (fun kl2 => ?_)
        refine noNotImpl_bind (noNotImpl_meanDim1 _) (fun kl3 => ?_)
        exact noNotImpl_pure _
    exact hsafe msg hres
  · intro hdis
    have h1 : recon_loss_name ≠ "BCEL" := fun h => hdis (Or.inl h)
    have h2 : recon_loss_name ≠ "BCE" := fun h => hdis (Or.inr (Or.inl h))
    have h3 : recon_loss_name ≠ "MSE" := fun h => hdis (Or.inr (Or.inr (Or.inl h)))
    have h4 : recon_loss_name ≠ "L1" := fun h => hdis (Or.inr (Or.inr (Or.inr h)))
    refine ⟨"loss not implemented=" ++ recon_loss_name, ?_⟩
    unfold AutoencoderConvolutionalVariational.loss_function
      AutoencoderConvolutionalVariational.selectReconLoss
    simp only [hb, h1, h2, h3, h4, if_false, Bind.bind, Except.bind, ite_false]

/-- C8: `loss_function_v2` returns the `LossOutput` produced by the supplied
reconstruction-loss function with every named component other than `kl`
unchanged — no flattening or per-sample reduction is applied to them — and
with the `kl` component set to the weighted Kullback-Leibler term. -/
theorem loss_function_v2_frame {α : Type} [Field α] (exp : α → α) (klw : α)
    (batch : List (String × Tensor α)) (model_output : Tensor α)
    (mu logvar : Tensor α) (es : List Nat)
    (fn : List (String × Tensor α) → Tensor α → LossOutput α)
    (n d : Nat) (rest : List Nat)
    (hs : mu.shape = logvar.shape) (hmu : mu.shape = n :: d :: rest) :
    ∃ out, AutoencoderConvolutionalVariational.loss_function_v2 exp batch model_output
        (mu, logvar, es) fn klw = Except.ok out ∧
      (∀ q, q ≠ "kl" → out.losses.lookup q = (fn batch model_output).losses.lookup q) ∧
      out.losses.lookup "kl" = some (klSpec exp klw mu logvar) := by
  obtain ⟨K, K2, K3, hK, hK2, hK3, hmap⟩ := kl_steps exp klw mu logvar n d rest hs hmu
  refine ⟨⟨setItem (fn batch model_output).losses "kl" (klSpec exp klw mu logvar)⟩,
    ?_, ?_, lookup_setItem_self _ _ _⟩
  · unfold AutoencoderConvolutionalVariational.loss_function_v2
    simp only [hK, hK2, hK3, hmap, Bind.bind, Except.bind, pure, Except.pure]
  · intro q hq
    exact lookup_setItem_ne _ _ _ _ hq

/-- C6 counterexample: the claim's case analysis ("fails by assertion when
absent, fails by assertion on spatial mismatch, otherwise returns the base
network on the concatenation") is not exhaustive.  With the conditioning
tensor present (first conjunct) and its spatial dimensions `shape[2:]` equal
to the input's (second conjunct), a batch-dimension mismatch makes
`torch.cat` raise a `RuntimeError`: the call neither fails by assertion nor
returns the base-network application. -/
theorem dm_forward_claim_counterexample :
    (([("images", (⟨[2, 1, 2], [1, 2, 3, 4]⟩ : Tensor ℚ))] :
        List (String × Tensor ℚ)).lookup "images" = some ⟨[2, 1, 2], [1, 2, 3, 4]⟩) ∧
    ((⟨[2, 1, 2], [(1 : ℚ), 2, 3, 4]⟩ : Tensor ℚ).shape.drop 2 =
      (⟨[1, 1, 2], [(9 : ℚ), 9]⟩ : Tensor ℚ).shape.drop 2) ∧
    DiffusionModelUNetConditioned.forward dmWrap ⟨[1, 1, 2], [(9 : ℚ), 9]⟩ ⟨[1], [(0 : ℚ)]⟩
        [("images", ⟨[2, 1, 2], [1, 2, 3, 4]⟩)] =
      Except.error (PyError.runtimeError
        "cat: sizes of tensors must match except in dimension 1") :=
  ⟨rfl, rfl, rfl⟩

/-- C6 (amended): `forward` fails by assertion when the conditioning keyword
is absent, fails by assertion when the conditioning tensor's `shape[2:]`
differs from the input's, and — provided the channel concatenation of the
input and the conditioning tensor is defined (same number of dimensions and
equal sizes in every dimension other than dimension 1) — returns the base
network applied to the concatenation and the timestep, with no other
effects.  (When the concatenation is undefined, it instead propagates the
concatenation's runtime error, as `dm_forward_claim_counterexample` shows.) -/
theorem dm_forward_amended {α : Type} [Field α] (m : DiffusionModelUNetConditioned α)
    (x t : Tensor α) (kwargs : List (String × Tensor α)) :
    (kwargs.lookup m.image_conditioning_name = none →
      DiffusionModelUNetConditioned.forward m x t kwargs =
        Except.error (PyError.assertionError
          ("missing input=" ++ m.image_conditioning_name))) ∧
    (∀ c, kwargs.lookup m.image_conditioning_name = some c →
      c.shape.drop 2 ≠ x.shape.drop 2 →
      DiffusionModelUNetConditioned.forward m x t kwargs =
        Except.error (PyError.assertionError "")) ∧
    (∀ c xc, kwargs.lookup m.image_conditioning_name = some c →
      c.shape.drop 2 = x.shape.drop 2 →
      Tensor.catDim1 x c = Except.ok xc →
      DiffusionModelUNetConditioned.forward m x t kwargs =
        Except.ok (m.base_model xc t)) := by
  refine ⟨?_, ?_, ?_⟩
  · intro h
    simp [DiffusionModelUNetConditioned.forward, h, Bind.bind, Except.bind]
  · intro c hc hne
    simp [DiffusionModelUNetConditioned.forward, hc, hne, Bind.bind, Except.bind]
  · intro c xc hc heq hcat
    simp [DiffusionModelUNetConditioned.forward, hc, heq, hcat, Bind.bind, Except.bind,
      pure, Except.pure]

/-- Concrete instantiation of `dm_forward_amended`: conditioning present and
compatible, so the wrapper returns the base network on the channel
concatenation. -/
theorem dm_forward_amended_witness :
    DiffusionModelUNetConditioned.forward dmWrap ⟨[1, 1, 2], [(9 : ℚ), 9]⟩ ⟨[1], [(0 : ℚ)]⟩
        [("images", ⟨[1, 1, 2], [(3 : ℚ), 4]⟩)] =
      Except.ok (dmWrap.base_model ⟨[1, 2, 2], [(9 : ℚ), 9, 3, 4]⟩ ⟨[1], [(0 : ℚ)]⟩) :=
  (dm_forward_amended dmWrap ⟨[1, 1, 2], [(9 : ℚ), 9]⟩ ⟨[1], [(0 : ℚ)]⟩
    [("images", ⟨[1, 1, 2], [(3 : ℚ), 4]⟩)]).2.2
    ⟨[1, 1, 2], [(3 : ℚ), 4]⟩ ⟨[1, 2, 2], [(9 : ℚ), 9, 3, 4]⟩ rfl rfl rfl

/-- C7: for a constructed autoencoder and an input accepted by it — the
encoder output has a batch dimension plus at least one more, its flattened
non-batch size agrees with the construction-time dry run (so the linear
projections accept it), the latent size matches that flattened size (so
`view` in `decode` is defined), and the decoder maps tensors of the encoder's
output shape to the input's shape — `encode` followed by `decode` on
`encode`'s own outputs succeeds and returns a tensor of the same shape as
the input. -/
theorem encode_decode_preserves_shape {α : Type} [Field α] (exp : α → α)
    (rng : List Nat → List α) (x0 x : Tensor α) (cnn_dim : Int)
    (encoder decoder : Tensor α → Tensor α) (z_size : Nat)
    (wlv : Nat → Nat → α) (blv : Nat → α) (wmu : Nat → Nat → α) (bmu : Nat → α)
    (training : Bool) (a b : Nat) (rest : List Nat)
    (hx : (encoder x).shape = a :: b :: rest)
    (hfeat : ((encoder x).shape.drop 1).prod = ((encoder x0).shape.drop 1).prod)
    (hz : z_size = ((encoder x0).shape.drop 1).prod)
    (hdec : ∀ u : Tensor α, u.shape = (encoder x).shape → (decoder u).shape = x.shape) :
    ∃ mu logvar r,
      AutoencoderConvolutionalVariational.encode
        (AutoencoderConvolutionalVariational.init x0 cnn_dim encoder decoder z_size
          wlv blv wmu bmu training) x = Except.ok (mu, logvar, (encoder x).shape) ∧
      AutoencoderConvolutionalVariational.decode exp rng
        (AutoencoderConvolutionalVariational.init x0 cnn_dim encoder decoder z_size
          wlv blv wmu bmu training) mu logvar ((encoder x).shape) = Except.ok r ∧
      r.shape = x.shape := by
  have hcond : (b :: rest).prod = ((encoder x0).shape.drop 1).prod := by
    have h := hfeat
    rw [hx] at h
    simpa using h
  have hflat : (encoder x).flatten1 = Except.ok ⟨[a, (b :: rest).prod], (encoder x).data⟩ := by
    simp [Tensor.flatten1, hx]
  have hmuap : ∃ dmu, Linear.apply (Linear.init ((encoder x0).shape.drop 1).prod z_size wmu bmu)
      ⟨[a, (b :: rest).prod], (encoder x).data⟩ = Except.ok ⟨[a, z_size], dmu⟩ :=
    ⟨_, if_pos hcond⟩
  have hlvap : ∃ dlv, Linear.apply (Linear.init ((encoder x0).shape.drop 1).prod z_size wlv blv)
      ⟨[a, (b :: rest).prod], (encoder x).data⟩ = Except.ok ⟨[a, z_size], dlv⟩ :=
    ⟨_, if_pos hcond⟩
  obtain ⟨dmu, hmuap⟩ := hmuap
  obtain ⟨dlv, hlvap⟩ := hlvap
  have hencode : AutoencoderConvolutionalVariational.encode
      (AutoencoderConvolutionalVariational.init x0 cnn_dim encoder decoder z_size
        wlv blv wmu bmu training) x =
      Except.ok (⟨[a, z_size], dmu⟩, ⟨[a, z_size], dlv⟩, (encoder x).shape) := by
    unfold AutoencoderConvolutionalVariational.encode
    simp only [AutoencoderConvolutionalVariational.init, hflat, hmuap, hlvap,
      Bind.bind, Except.bind, pure, Except.pure]
  obtain ⟨dz, hrep⟩ := reparameterize_shape exp rng training
    ⟨[a, z_size], dmu⟩ ⟨[a, z_size], dlv⟩ rfl
  have hzb : z_size = (b :: rest).prod := hz.trans hcond.symm
  have hview : Tensor.view ⟨[a, z_size], dz⟩ ((encoder x).shape) =
      Except.ok ⟨(encoder x).shape, dz⟩ := by
    unfold Tensor.view
    rw [if_pos]
    rw [hx, hzb]
    simp
  have hdecres : AutoencoderConvolutionalVariational.decode exp rng
      (AutoencoderConvolutionalVariational.init x0 cnn_dim encoder decoder z_size
        wlv blv wmu bmu training) ⟨[a, z_size], dmu⟩ ⟨[a, z_size], dlv⟩
      ((encoder x).shape) = Except.ok (decoder ⟨(encoder x).shape, dz⟩) := by
    unfold AutoencoderConvolutionalVariational.decode
    simp only [AutoencoderConvolutionalVariational.init, hrep, hview,
      Bind.bind, Except.bind, pure, Except.pure]
  exact ⟨_, _, _, hencode, hdecres, hdec ⟨(encoder x).shape, dz⟩ rfl⟩

/-- Concrete instantiation of `encode_decode_preserves_shape`: identity
encoder/decoder on a `[1, 2]` input with `z_size = 2`. -/
theorem encode_decode_preserves_shape_witness :
    ∃ mu logvar r,
      AutoencoderConvolutionalVariational.encode vaeRoundModel ⟨[1, 2], [(3 : ℚ), 5]⟩ =
        Except.ok (mu, logvar, (idQ ⟨[1, 2], [(3 : ℚ), 5]⟩).shape) ∧
      AutoencoderConvolutionalVariational.decode expOneQ rngZero vaeRoundModel mu logvar
        ((idQ ⟨[1, 2], [(3 : ℚ), 5]⟩).shape) = Except.ok r ∧
      r.shape = (⟨[1, 2], [(3 : ℚ), 5]⟩ : Tensor ℚ).shape :=
  encode_decode_preserves_shape expOneQ rngZero ⟨[1, 2], [0, 0]⟩ ⟨[1, 2], [(3 : ℚ), 5]⟩ 4
    idQ idQ 2 (fun _ _ => 0) (fun _ => 0) (fun _ _ => 0) (fun _ => 0) false 1 2 []
    rfl rfl rfl (fun u hu => hu)

/-- Concrete instantiation of `kl_component_eq_spec`: MSE reconstruction on a
`[1, 2]` batch with all-zero mean and log-variance. -/
theorem kl_component_eq_spec_witness :
    (batchW.lookup "x" = some ⟨[1, 2], [(1 : ℚ), 2]⟩) ∧
    ((∃ out, AutoencoderConvolutionalVariational.loss_function expOneQ
        reconW reconW reconW reconW batchW ⟨[1, 2], [(1 : ℚ), 2]⟩
        (muZeroW, muZeroW, [1, 2]) "x" "MSE" (1 / 5 : ℚ) = Except.ok out ∧
      out.losses.lookup "kl" = some (klSpec expOneQ (1 / 5 : ℚ) muZeroW muZeroW)) ∧
    (∃ out2, AutoencoderConvolutionalVariational.loss_function_v2 expOneQ batchW
        ⟨[1, 2], [(1 : ℚ), 2]⟩ (muZeroW, muZeroW, [1, 2]) fnW (1 / 5 : ℚ) = Except.ok out2 ∧
      out2.losses.lookup "kl" = some (klSpec expOneQ (1 / 5 : ℚ) muZeroW muZeroW)) ∧
    (expOneQ 0 = 1 → (∀ v ∈ muZeroW.data, v = (0 : ℚ)) → (∀ v ∈ muZeroW.data, v = (0 : ℚ)) →
      klSpec expOneQ (1 / 5 : ℚ) muZeroW muZeroW = ⟨[1], List.replicate 1 (0 : ℚ)⟩)) :=
  ⟨rfl, kl_component_eq_spec expOneQ (1 / 5 : ℚ) reconW reconW reconW reconW batchW
    ⟨[1, 2], [(1 : ℚ), 2]⟩ ⟨[1, 2], [(1 : ℚ), 2]⟩ ⟨[1, 2], [(1 : ℚ), 2]⟩ muZeroW muZeroW
    [1, 2] "x" "MSE" fnW 1 2 1 2 [] [] rfl rfl rfl rfl rfl⟩

/-- Concrete instantiation of `loss_function_notimplemented_iff` at the
unknown name `FOO`. -/
theorem loss_function_notimplemented_iff_witness :
    (batchW.lookup "x" = some ⟨[1, 2], [(1 : ℚ), 2]⟩) ∧
    (((∃ msg, AutoencoderConvolutionalVariational.loss_function expOneQ
        reconW reconW reconW reconW batchW ⟨[1, 2], [(1 : ℚ), 2]⟩
        (muZeroW, muZeroW, [1, 2]) "x" "FOO" (1 / 5 : ℚ) =
        Except.error (PyError.notImplementedError msg)) ↔
      ¬(("FOO" : String) = "BCEL" ∨ ("FOO" : String) = "BCE" ∨ ("FOO" : String) = "MSE" ∨
        ("FOO" : String) = "L1")) ∧
    AutoencoderConvolutionalVariational.selectReconLoss reconW reconW reconW reconW "BCEL"
      ⟨[1, 2], [(1 : ℚ), 2]⟩ ⟨[1, 2], [(1 : ℚ), 2]⟩ =
      Except.ok (reconW ⟨[1, 2], [(1 : ℚ), 2]⟩ ⟨[1, 2], [(1 : ℚ), 2]⟩) ∧
    AutoencoderConvolutionalVariational.selectReconLoss reconW reconW reconW reconW "BCE"
      ⟨[1, 2], [(1 : ℚ), 2]⟩ ⟨[1, 2], [(1 : ℚ), 2]⟩ =
      Except.ok (reconW ⟨[1, 2], [(1 : ℚ), 2]⟩ ⟨[1, 2], [(1 : ℚ), 2]⟩) ∧
    AutoencoderConvolutionalVariational.selectReconLoss reconW reconW reconW reconW "MSE"
      ⟨[1, 2], [(1 : ℚ), 2]⟩ ⟨[1, 2], [(1 : ℚ), 2]⟩ =
      Except.ok (reconW ⟨[1, 2], [(1 : ℚ), 2]⟩ ⟨[1, 2], [(1 : ℚ), 2]⟩) ∧
    AutoencoderConvolutionalVariational.selectReconLoss reconW reconW reconW reconW "L1"
      ⟨[1, 2], [(1 : ℚ), 2]⟩ ⟨[1, 2], [(1 : ℚ), 2]⟩ =
      Except.ok (reconW ⟨[1, 2], [(1 : ℚ), 2]⟩ ⟨[1, 2], [(1 : ℚ), 2]⟩)) :=
  ⟨rfl, loss_function_notimplemented_iff expOneQ reconW reconW reconW reconW batchW
    ⟨[1, 2], [(1 : ℚ), 2]⟩ ⟨[1, 2], [(1 : ℚ), 2]⟩ muZeroW muZeroW [1, 2] "x" "FOO"
    (1 / 5 : ℚ) rfl⟩

/-- Concrete instantiation of `loss_function_v2_frame`: a one-component
structured loss into which `kl` is injected. -/
theorem loss_function_v2_frame_witness :
    ∃ out, AutoencoderConvolutionalVariational.loss_function_v2 expOneQ batchW
        ⟨[1, 2], [(1 : ℚ), 2]⟩ (muZeroW, muZeroW, [1, 2]) fnW (1 / 5 : ℚ) = Except.ok out ∧
      (∀ q, q ≠ "kl" →
        out.losses.lookup q = (fnW batchW ⟨[1, 2], [(1 : ℚ), 2]⟩).losses.lookup q) ∧
      out.losses.lookup "kl" = some (klSpec expOneQ (1 / 5 : ℚ) muZeroW muZeroW) :=
  loss_function_v2_frame expOneQ (1 / 5 : ℚ) batchW ⟨[1, 2], [(1 : ℚ), 2]⟩ muZeroW muZeroW
    [1, 2] fnW 1 2 [] rfl rfl
